import Mathlib

/-!
Verification development for the bts-bdp-assignment repository.

Part 1 embeds `download_data` and `prepare_data` from `src/bdi_api/s4/exercise.py`.
The remote HTTP source, the S3 client and the local filesystem are modelled as an
oracle `env : Nat → Outcome` giving the result of the i-th loop iteration
(attempt), and the observable side effects of a run are collected in a trace of
`Event`s.  The unbounded `while` loop is embedded with explicit fuel: a source
run that terminates corresponds to some fuel making the embedded loop return
`some`, and a diverging run corresponds to `none` for every fuel.

Part 2 embeds the five-table HR database of `src/bdi_api/s5/exercise.py` as lists
of rows and each SQL statement of the endpoints as a Lean function on that state.
The schema file `hr_schema.sql` is not part of the repository sources, so the
facts that come from it (primary keys, foreign keys) are modelled from the spec
where needed; each such place is marked in its doc comment.
-/

/-- Result of one iteration of the download loop, as decided by the outside
world: the fetch returns HTTP 200 and the upload (and local cleanup) succeeds
(`ok`); the fetch returns a non-200 status code (`httpStatus`); `requests.get`
raises before a status is available (`fetchExn`); or the fetch returned 200 but
writing/uploading raised, so the attempt is logged and not counted
(`uploadExn`). -/
inductive Outcome where
  | ok
  | httpStatus (code : Nat)
  | fetchExn
  | uploadExn
deriving DecidableEq

/-- Observable side effects of `download_data`: an HTTP GET of a URL, an S3
upload under a key, and the deletion of the transient local file. -/
inductive Event where
  | fetch (url : String)
  | upload (key : String)
  | deleteLocal (filename : String)
deriving DecidableEq

def isFetchEvent : Event → Bool
  | Event.fetch _ => true
  | _ => false

def isUploadEvent : Event → Bool
  | Event.upload _ => true
  | _ => false

def isDeleteEvent : Event → Bool
  | Event.deleteLocal _ => true
  | _ => false

/-- Python's `f"{n:02d}"`: decimal digits, left-padded with `0` to width 2. -/
def pad2 (n : Nat) : String := if n < 10 then "0" ++ toString n else toString n

/-- Filename built by the loop body: `f"{hh:02d}{mm:02d}{ss:02d}Z.json.gz"` with
`hh = seconds // 3600`, `mm = (seconds % 3600) // 60`, `ss = seconds % 60`. -/
def fmtFilename (seconds : Nat) : String :=
  pad2 (seconds / 3600) ++ pad2 (seconds % 3600 / 60) ++ pad2 (seconds % 60) ++ "Z.json.gz"

/-- Base URL of the dataset for the selected day: `settings.source_url + "/2023/11/01/"`. -/
def base_url (source_url : String) : String := source_url ++ "/2023/11/01/"

/-- Folder inside the bucket where raw files are stored. -/
def s3_prefix_path : String := "raw/day=20231101/"

/-- Full URL fetched for a given value of the `seconds` counter. -/
def fileUrl (source_url : String) (seconds : Nat) : String :=
  base_url source_url ++ fmtFilename seconds

/-- Fuel-indexed embedding of the `while downloaded < file_limit` loop of
`download_data`.  State: `downloaded` (count of successfully uploaded files),
`seconds` (the 5-second timestamp counter) and `attempt` (the ordinal of the
iteration, used only to query the oracle).  One iteration fetches
`base_url + filename`; on `ok` it uploads to `s3_prefix_path + filename`,
deletes the local copy and increments `downloaded`; on a non-200 status or an
exception nothing is counted.  In every branch `seconds` advances by 5 (the
non-200 branch increments before its `continue`, the others fall through to the
increment at the bottom of the loop body). -/
def downloadLoop (env : Nat → Outcome) (file_limit : Int) (source_url : String) :
    Nat → Nat → Nat → Nat → Option (List Event × String)
  | 0, downloaded, _, _ =>
    if (downloaded : Int) < file_limit then none else some ([], "OK")
  | fuel + 1, downloaded, seconds, attempt =>
    if (downloaded : Int) < file_limit then
      match env attempt with
      | Outcome.ok =>
        (downloadLoop env file_limit source_url fuel (downloaded + 1) (seconds + 5)
            (attempt + 1)).map
          (fun r => (Event.fetch (fileUrl source_url seconds) ::
            Event.upload (s3_prefix_path ++ fmtFilename seconds) ::
            Event.deleteLocal (fmtFilename seconds) :: r.1, r.2))
      | Outcome.httpStatus _ =>
        (downloadLoop env file_limit source_url fuel downloaded (seconds + 5)
            (attempt + 1)).map
          (fun r => (Event.fetch (fileUrl source_url seconds) :: r.1, r.2))
      | Outcome.fetchExn =>
        (downloadLoop env file_limit source_url fuel downloaded (seconds + 5)
            (attempt + 1)).map
          (fun r => (Event.fetch (fileUrl source_url seconds) :: r.1, r.2))
      | Outcome.uploadExn =>
        (downloadLoop env file_limit source_url fuel downloaded (seconds + 5)
            (attempt + 1)).map
          (fun r => (Event.fetch (fileUrl source_url seconds) ::
            Event.upload (s3_prefix_path ++ fmtFilename seconds) :: r.1, r.2))
    else some ([], "OK")

/-- Embedding of `download_data`: run the loop from `downloaded = 0`,
`seconds = 0` with the given fuel.  `some (trace, s)` means the source function
terminates within `fuel` iterations with return value `s`, performing exactly
the side effects in `trace`; `none` means it has not terminated after `fuel`
iterations. -/
def download_data (env : Nat → Outcome) (file_limit : Int) (source_url : String)
    (fuel : Nat) : Option (List Event × String) :=
  downloadLoop env file_limit source_url fuel 0 0 0

/-- Trace produced by a run in which every attempt succeeds, starting at a given
value of the `seconds` counter: fetch, upload, delete for each of `m` files. -/
def okTrace (source_url : String) : Nat → Nat → List Event
  | _, 0 => []
  | s, m + 1 =>
    Event.fetch (fileUrl source_url s) ::
      Event.upload (s3_prefix_path ++ fmtFilename s) ::
      Event.deleteLocal (fmtFilename s) :: okTrace source_url (s + 5) m

/-- Number of successful (`ok`) attempts among attempts `i, i+1, ..., i+k-1`. -/
def successCountFrom (env : Nat → Outcome) : Nat → Nat → Nat
  | _, 0 => 0
  | i, k + 1 => (if env i = Outcome.ok then 1 else 0) + successCountFrom env (i + 1) k

/-- Number of successful attempts among the first `k` attempts. -/
def successCount (env : Nat → Outcome) (k : Nat) : Nat :=
  successCountFrom env 0 k

/-- The download loop terminates for this oracle: some fuel suffices. -/
def Terminates (env : Nat → Outcome) (file_limit : Int) (source_url : String) : Prop :=
  ∃ fuel res, download_data env file_limit source_url fuel = some res

/-- URLs of the fetch events of a trace, in order. -/
def fetchUrls (evs : List Event) : List String :=
  evs.filterMap (fun e => match e with | Event.fetch url => some url | _ => none)

/-- One local copy performed by `prepare_data`: `s3.download_file(bucket, key, local_path)`. -/
structure CopyOp where
  key : String
  localPath : String
deriving DecidableEq

/-- Python's `key.split("/")[-1]`: the portion of the key after the final slash
(`str.split` always yields a nonempty list, so `[-1]` is its last element). -/
def lastComponent (key : String) : String := (key.splitOn "/").getLastD ""

/-- Python's `os.path.join` for the two-argument uses in `prepare_data`. -/
def joinPath (a b : String) : String :=
  if b.startsWith "/" then b
  else if a = "" ∨ a.endsWith "/" then a ++ b
  else a ++ "/" ++ b

/-- Embedding of `prepare_data`.  The S3 listing response is `none` when the
`"Contents"` key is absent (empty bucket), else `some` of the listed object keys
in listing order.  The result is the sequence of local-copy operations performed,
in order, together with the returned string. -/
def prepare_data (raw_dir : String) (contents : Option (List String)) :
    List CopyOp × String :=
  let local_raw_dir := joinPath raw_dir "day=20231101"
  match contents with
  | none => ([], "No files in bucket")
  | some objs =>
    (objs.map (fun key =>
      { key := key, localPath := joinPath local_raw_dir (lastComponent key) }), "OK")

/-- Row of the `department` table: id, name, location. -/
structure Department where
  id : Int
  name : String
  location : String
deriving DecidableEq

/-- Row of the `employee` table, with the columns the s5 queries read. -/
structure Employee where
  id : Int
  first_name : String
  last_name : String
  email : String
  salary : Rat
  department_id : Int
  hire_date : String
deriving DecidableEq

/-- Row of the `project` table (id plus descriptive fields; only `id` is ever
referenced by the queries under verification). -/
structure Project where
  id : Int
  name : String
deriving DecidableEq

/-- Row of the `employee_project` many-to-many join table. -/
structure EmployeeProject where
  employee_id : Int
  project_id : Int
deriving DecidableEq

/-- Row of the `salary_history` table. -/
structure SalaryHistory where
  employee_id : Int
  change_date : String
  old_salary : Rat
  new_salary : Rat
  reason : String
deriving DecidableEq

/-- The database state: the five HR tables as lists of rows. -/
structure DB where
  department : List Department
  employee : List Employee
  project : List Project
  employee_project : List EmployeeProject
  salary_history : List SalaryHistory
deriving DecidableEq

/-- Modelled from the spec: the foreign-key constraints of the schema
(`hr_schema.sql` is not among the repository sources).  Every employee
references an existing department, every assignment references an existing
employee and project, and every salary-history row references an existing
employee. -/
def ForeignKeysOk (db : DB) : Prop :=
  (∀ e ∈ db.employee, ∃ d ∈ db.department, d.id = e.department_id) ∧
  (∀ ep ∈ db.employee_project, ∃ e ∈ db.employee, e.id = ep.employee_id) ∧
  (∀ ep ∈ db.employee_project, ∃ p ∈ db.project, p.id = ep.project_id) ∧
  (∀ sh ∈ db.salary_history, ∃ e ∈ db.employee, e.id = sh.employee_id)

/-- States reached after each single `DELETE FROM` statement of the delete phase
of `seed_database`, in the order they appear in the source: salary_history,
employee_project, employee, project, department. -/
def seedDeleteStates (db : DB) : List DB :=
  let s1 : DB := { db with salary_history := [] }
  let s2 : DB := { s1 with employee_project := [] }
  let s3 : DB := { s2 with employee := [] }
  let s4 : DB := { s3 with project := [] }
  let s5 : DB := { s4 with department := [] }
  [s1, s2, s3, s4, s5]

/-- Result row of `GET /api/s5/employees/`. -/
structure EmpRow where
  id : Int
  first_name : String
  last_name : String
  email : String
  salary : Rat
  department_name : String
deriving DecidableEq

/-- Row built by the SELECT of `list_employees` for a joined pair. -/
def empRowOf (e : Employee) (d : Department) : EmpRow :=
  { id := e.id, first_name := e.first_name, last_name := e.last_name,
    email := e.email, salary := e.salary, department_name := d.name }

/-- Inner join `FROM employee e JOIN department d ON e.department_id = d.id`
with the projected columns of `list_employees`. -/
def employeesJoined (db : DB) : List EmpRow :=
  db.employee.flatMap (fun e =>
    (db.department.filter (fun d => d.id = e.department_id)).map (fun d => empRowOf e d))

/-- The joined rows ordered by `ORDER BY e.id` (ascending).  SQL specifies only
the ordering, not an algorithm; insertion sort realises it. -/
def employeesOrdered (db : DB) : List EmpRow :=
  List.insertionSort (fun a b => a.id ≤ b.id) (employeesJoined db)

/-- Embedding of `list_employees`: `offset = (page - 1) * per_page`, then
`LIMIT per_page OFFSET offset` over the ordered join. -/
def list_employees (db : DB) (page per_page : Nat) : List EmpRow :=
  ((employeesOrdered db).drop ((page - 1) * per_page)).take per_page

/-- Result row of `GET /api/s5/departments/.../employees`. -/
structure DeptEmpRow where
  id : Int
  first_name : String
  last_name : String
  email : String
  salary : Rat
  hire_date : String
deriving DecidableEq

/-- Row built by the SELECT of `list_department_employees`. -/
def empToDeptRow (e : Employee) : DeptEmpRow :=
  { id := e.id, first_name := e.first_name, last_name := e.last_name,
    email := e.email, salary := e.salary, hire_date := e.hire_date }

/-- Python value returned by `list_department_employees`: either a JSON list of
rows or, because of `department_employees or {}`, the empty dict. -/
inductive DeptEmpResult where
  | list (rows : List DeptEmpRow)
  | emptyDict
deriving DecidableEq

/-- Embedding of `list_department_employees`: filter by `department_id`, order
by id, and normalize an empty result to `{}` (`department_employees or {}`). -/
def list_department_employees (db : DB) (dept_id : Int) : DeptEmpResult :=
  let rows := List.insertionSort (fun a b => a.id ≤ b.id)
    ((db.employee.filter (fun e => e.department_id = dept_id)).map empToDeptRow)
  if rows.isEmpty then DeptEmpResult.emptyDict else DeptEmpResult.list rows

/-- Result record of `GET /api/s5/departments/.../stats`.  `avg_salary` is
`none` when SQL `AVG` is taken over zero non-null values. -/
structure DeptStats where
  department_name : String
  employee_count : Nat
  avg_salary : Option Rat
  project_count : Nat
deriving DecidableEq

/-- Employees of the department: the rows matched by `LEFT JOIN employee e ON
e.department_id = d.id`. -/
def statsEmployees (db : DB) (d : Department) : List Employee :=
  db.employee.filter (fun e => e.department_id = d.id)

/-- Project assignments of one employee: the rows matched by `LEFT JOIN
employee_project ep ON ep.employee_id = e.id`. -/
def empAssignments (db : DB) (e : Employee) : List EmployeeProject :=
  db.employee_project.filter (fun ep => ep.employee_id = e.id)

/-- Row set of the double left join of `department_stats` for one department:
if the department has no employees, a single row with NULL employee and NULL
assignment; otherwise one row per matching assignment of each employee, and a
row with a NULL assignment for an employee with no assignments (a NULL employee
never matches an assignment, since `ep.employee_id = NULL` is not true). -/
def statsJoinRows (db : DB) (d : Department) :
    List (Option Employee × Option EmployeeProject) :=
  if (statsEmployees db d).isEmpty then [(none, none)]
  else
    (statsEmployees db d).flatMap (fun e =>
      if (empAssignments db e).isEmpty then [(some e, none)]
      else (empAssignments db e).map (fun ep => (some e, some ep)))

/-- Embedding of `department_stats`.  `department.id` is the schema's primary
key (modelled from the spec; `hr_schema.sql` is not among the sources), so
`WHERE d.id = %s` with `GROUP BY d.id, d.name` yields at most one group and
`fetchone()` is that group, or `None` when no department row matches.
`COUNT(e.id)` counts rows with a non-null employee, `AVG(e.salary)` averages
the non-null salaries of those rows (NULL over zero rows), and
`COUNT(DISTINCT ep.project_id)` counts the distinct non-null project ids. -/
def department_stats (db : DB) (dept_id : Int) : Option DeptStats :=
  match db.department.find? (fun d => d.id = dept_id) with
  | none => none
  | some d =>
    let rows := statsJoinRows db d
    let sals := rows.filterMap (fun r => r.1.map Employee.salary)
    some
      { department_name := d.name,
        employee_count := rows.countP (fun r => r.1.isSome),
        avg_salary := if sals.isEmpty then none
          else some (sals.sum / (sals.length : Rat)),
        project_count :=
          (rows.filterMap (fun r => r.2.map EmployeeProject.project_id)).dedup.length }

/-- Salaries of the department's employees with the multiplicity the join gives
them: each employee contributes one copy of their salary per project assignment,
and one copy if they have no assignment.  This is the claim-side description of
the values SQL `AVG(e.salary)` actually averages in `department_stats`. -/
def weightedSalaryList (db : DB) (d : Department) : List Rat :=
  (statsEmployees db d).flatMap
    (fun e => List.replicate (max 1 (empAssignments db e).length) e.salary)

/-- Concrete state on which `department_stats` overcounts: department 1 has two
employees, the first of which is assigned to two projects. -/
def statsCexDb : DB :=
  { department := [{ id := 1, name := "Engineering", location := "Madrid" }],
    employee :=
      [{ id := 10, first_name := "Ana", last_name := "Diaz", email := "ana@corp",
         salary := 100, department_id := 1, hire_date := "2020-01-01" },
       { id := 11, first_name := "Bo", last_name := "Kim", email := "bo@corp",
         salary := 200, department_id := 1, hire_date := "2021-02-02" }],
    project := [{ id := 500, name := "Apollo" }, { id := 501, name := "Hermes" }],
    employee_project :=
      [{ employee_id := 10, project_id := 500 }, { employee_id := 10, project_id := 501 }],
    salary_history := [] }

/-- Small database used to instantiate the universally quantified theorems. -/
def sampleDb : DB :=
  { department :=
      [{ id := 1, name := "Engineering", location := "Madrid" },
       { id := 2, name := "Sales", location := "Paris" }],
    employee :=
      [{ id := 10, first_name := "Ana", last_name := "Diaz", email := "ana@corp",
         salary := 100, department_id := 1, hire_date := "2020-01-01" },
       { id := 11, first_name := "Bo", last_name := "Kim", email := "bo@corp",
         salary := 200, department_id := 1, hire_date := "2021-02-02" },
       { id := 12, first_name := "Cy", last_name := "Lee", email := "cy@corp",
         salary := 300, department_id := 2, hire_date := "2022-03-03" }],
    project := [{ id := 500, name := "Apollo" }, { id := 501, name := "Hermes" }],
    employee_project :=
      [{ employee_id := 10, project_id := 500 }, { employee_id := 10, project_id := 501 },
       { employee_id := 11, project_id := 500 }],
    salary_history :=
      [{ employee_id := 10, change_date := "2021-06-01", old_salary := 90,
         new_salary := 100, reason := "annual raise" }] }

/-- Department-less database used to instantiate the missing-department theorem. -/
def noMatchDb : DB :=
  { department := [{ id := 2, name := "Sales", location := "Paris" }],
    employee := [], project := [], employee_project := [], salary_history := [] }

theorem downloadLoop_allOk (env : Nat → Outcome) (u : String) (lim : Int)
    (hok : ∀ i, env i = Outcome.ok) :
    ∀ (fuel d s i : Nat), lim ≤ (d : Int) + (fuel : Int) →
      downloadLoop env lim u fuel d s i = some (okTrace u s (lim - (d : Int)).toNat, "OK") := by
  intro fuel
  induction fuel with
  | zero =>
    intro d s i h
    have hnd : ¬ ((d : Int) < lim) := by omega
    have h0 : (lim - (d : Int)).toNat = 0 := by omega
    simp [downloadLoop, hnd, h0, okTrace]
  | succ fuel ih =>
    intro d s i h
    by_cases hc : (d : Int) < lim
    · have hrec := ih (d + 1) (s + 5) (i + 1) (by push_cast; omega)
      have hm : (lim - (d : Int)).toNat = (lim - ((d : Nat) + 1 : Int)).toNat + 1 := by
        omega
      simp only [downloadLoop, if_pos hc, hok i, hrec, Option.map_some']
      rw [hm]
      rfl
    · have h0 : (lim - (d : Int)).toNat = 0 := by omega
      simp [downloadLoop, hc, h0, okTrace]

theorem okTrace_counts (u : String) :
    ∀ m s, (okTrace u s m).countP isFetchEvent = m ∧
      (okTrace u s m).countP isUploadEvent = m ∧
      (okTrace u s m).countP isDeleteEvent = m := by
  intro m
  induction m with
  | zero => intro s; simp [okTrace]
  | succ m ih =>
    intro s
    obtain ⟨h1, h2, h3⟩ := ih (s + 5)
    simp [okTrace, List.countP_cons, isFetchEvent, isUploadEvent, isDeleteEvent, h1, h2, h3]

theorem downloadLoop_some_le (env : Nat → Outcome) (u : String) (lim : Int) :
    ∀ (fuel d s i : Nat) res, downloadLoop env lim u fuel d s i = some res →
      lim ≤ (d : Int) + (successCountFrom env i fuel : Int) := by
  intro fuel
  induction fuel with
  | zero =>
    intro d s i res h
    simp only [downloadLoop] at h
    split at h
    · exact absurd h (by simp)
    · simp only [successCountFrom]; omega
  | succ fuel ih =>
    intro d s i res h
    by_cases hc : (d : Int) < lim
    · cases henv : env i with
      | ok =>
        simp only [downloadLoop, if_pos hc, henv, Option.map_eq_some'] at h
        obtain ⟨res', hres', -⟩ := h
        have := ih (d + 1) (s + 5) (i + 1) res' hres'
        simp only [successCountFrom, henv, if_pos rfl]
        push_cast at this ⊢
        omega
      | httpStatus code =>
        simp only [downloadLoop, if_pos hc, henv, Option.map_eq_some'] at h
        obtain ⟨res', hres', -⟩ := h
        have := ih d (s + 5) (i + 1) res' hres'
        have hne : env i ≠ Outcome.ok := by simp [henv]
        simp only [successCountFrom, if_neg hne]
        omega
      | fetchExn =>
        simp only [downloadLoop, if_pos hc, henv, Option.map_eq_some'] at h
        obtain ⟨res', hres', -⟩ := h
        have := ih d (s + 5) (i + 1) res' hres'
        have hne : env i ≠ Outcome.ok := by simp [henv]
        simp only [successCountFrom, if_neg hne]
        omega
      | uploadExn =>
        simp only [downloadLoop, if_pos hc, henv, Option.map_eq_some'] at h
        obtain ⟨res', hres', -⟩ := h
        have := ih d (s + 5) (i + 1) res' hres'
        have hne : env i ≠ Outcome.ok := by simp [henv]
        simp only [successCountFrom, if_neg hne]
        omega
    · omega

theorem downloadLoop_isSome (env : Nat → Outcome) (u : String) (lim : Int) :
    ∀ (fuel d s i : Nat), lim ≤ (d : Int) + (successCountFrom env i fuel : Int) →
      ∃ res, downloadLoop env lim u fuel d s i = some res := by
  intro fuel
  induction fuel with
  | zero =>
    intro d s i h
    simp only [successCountFrom] at h
    have hnd : ¬ ((d : Int) < lim) := by omega
    exact ⟨([], "OK"), by simp [downloadLoop, hnd]⟩
  | succ fuel ih =>
    intro d s i h
    by_cases hc : (d : Int) < lim
    · cases henv : env i with
      | ok =>
        obtain ⟨res, hres⟩ := ih (d + 1) (s + 5) (i + 1) (by
          simp only [successCountFrom, henv, if_pos rfl] at h
          push_cast at h ⊢
          omega)
        exact ⟨_, by simp only [downloadLoop, if_pos hc, henv, hres, Option.map_some']; rfl⟩
      | httpStatus code =>
        obtain ⟨res, hres⟩ := ih d (s + 5) (i + 1) (by
          have hne : env i ≠ Outcome.ok := by simp [henv]
          simp only [successCountFrom, if_neg hne] at h
          omega)
        exact ⟨_, by simp only [downloadLoop, if_pos hc, henv, hres, Option.map_some']; rfl⟩
      | fetchExn =>
        obtain ⟨res, hres⟩ := ih d (s + 5) (i + 1) (by
          have hne : env i ≠ Outcome.ok := by simp [henv]
          simp only [successCountFrom, if_neg hne] at h
          omega)
        exact ⟨_, by simp only [downloadLoop, if_pos hc, henv, hres, Option.map_some']; rfl⟩
      | uploadExn =>
        obtain ⟨res, hres⟩ := ih d (s + 5) (i + 1) (by
          have hne : env i ≠ Outcome.ok := by simp [henv]
          simp only [successCountFrom, if_neg hne] at h
          omega)
        exact ⟨_, by simp only [downloadLoop, if_pos hc, henv, hres, Option.map_some']; rfl⟩
    · exact ⟨([], "OK"), by simp [downloadLoop, hc]⟩

theorem successCountFrom_of_never (env : Nat → Outcome) (h : ∀ i, env i ≠ Outcome.ok) :
    ∀ (k i : Nat), successCountFrom env i k = 0 := by
  intro k
  induction k with
  | zero => intro i; rfl
  | succ k ih => intro i; simp [successCountFrom, h i, ih (i + 1)]

theorem downloadLoop_fetchUrls (env : Nat → Outcome) (u : String) (lim : Int) :
    ∀ (fuel d s i : Nat) evs r, downloadLoop env lim u fuel d s i = some (evs, r) →
      fetchUrls evs =
        (List.range (fetchUrls evs).length).map (fun j => fileUrl u (s + 5 * j)) := by
  intro fuel
  induction fuel with
  | zero =>
    intro d s i evs r h
    simp only [downloadLoop] at h
    split at h
    · exact absurd h (by simp)
    · injection h with h1
      injection h1 with h2 h3
      subst h2
      simp [fetchUrls]
  | succ fuel ih =>
    intro d s i evs r h
    by_cases hc : (d : Int) < lim
    · cases henv : env i with
      | ok =>
        simp only [downloadLoop, if_pos hc, henv, Option.map_eq_some'] at h
        obtain ⟨⟨evs', r'⟩, hrec, heq⟩ := h
        obtain ⟨rfl, -⟩ : Event.fetch (fileUrl u s) :: Event.upload (s3_prefix_path ++
            fmtFilename s) :: Event.deleteLocal (fmtFilename s) :: evs' = evs ∧ r' = r := by
          simpa using heq
        have hih := ih (d + 1) (s + 5) (i + 1) evs' r' hrec
        simp only [fetchUrls, List.filterMap_cons] at hih ⊢
        simp only [List.length_cons, List.range_succ_eq_map, List.map_cons, List.map_map]
        refine congrArg₂ _ (by simp) ?_
        refine hih.trans (List.map_congr_left ?_)
        intro j hj
        simp only [Function.comp_apply]
        congr 1
        omega
      | httpStatus code =>
        simp only [downloadLoop, if_pos hc, henv, Option.map_eq_some'] at h
        obtain ⟨⟨evs', r'⟩, hrec, heq⟩ := h
        obtain ⟨rfl, -⟩ : Event.fetch (fileUrl u s) :: evs' = evs ∧ r' = r := by
          simpa using heq
        have hih := ih d (s + 5) (i + 1) evs' r' hrec
        simp only [fetchUrls, List.filterMap_cons] at hih ⊢
        simp only [List.length_cons, List.range_succ_eq_map, List.map_cons, List.map_map]
        refine congrArg₂ _ (by simp) ?_
        refine hih.trans (List.map_congr_left ?_)
        intro j hj
        simp only [Function.comp_apply]
        congr 1
        omega
      | fetchExn =>
        simp only [downloadLoop, if_pos hc, henv, Option.map_eq_some'] at h
        obtain ⟨⟨evs', r'⟩, hrec, heq⟩ := h
        obtain ⟨rfl, -⟩ : Event.fetch (fileUrl u s) :: evs' = evs ∧ r' = r := by
          simpa using heq
        have hih := ih d (s + 5) (i + 1) evs' r' hrec
        simp only [fetchUrls, List.filterMap_cons] at hih ⊢
        simp only [List.length_cons, List.range_succ_eq_map, List.map_cons, List.map_map]
        refine congrArg₂ _ (by simp) ?_
        refine hih.trans (List.map_congr_left ?_)
        intro j hj
        simp only [Function.comp_apply]
        congr 1
        omega
      | uploadExn =>
        simp only [downloadLoop, if_pos hc, henv, Option.map_eq_some'] at h
        obtain ⟨⟨evs', r'⟩, hrec, heq⟩ := h
        obtain ⟨rfl, -⟩ : Event.fetch (fileUrl u s) :: Event.upload (s3_prefix_path ++
            fmtFilename s) :: evs' = evs ∧ r' = r := by
          simpa using heq
        have hih := ih d (s + 5) (i + 1) evs' r' hrec
        simp only [fetchUrls, List.filterMap_cons] at hih ⊢
        simp only [List.length_cons, List.range_succ_eq_map, List.map_cons, List.map_map]
        refine congrArg₂ _ (by simp) ?_
        refine hih.trans (List.map_congr_left ?_)
        intro j hj
        simp only [Function.comp_apply]
        congr 1
        omega
    · simp only [downloadLoop, if_neg hc] at h
      injection h with h1
      injection h1 with h2 h3
      subst h2
      simp [fetchUrls]

/-- C1: for every `file_limit = n > 0`, if every fetch returns HTTP 200 and every
upload succeeds (`env i = ok` for all attempts), `download_data` terminates (any
fuel of at least `n` iterations suffices) with trace `okTrace u 0 n` — `n`
fetch/upload/delete triples, each file deleted immediately after its upload —
performing exactly `n` upload calls, one per fetched file, and returns `"OK"`. -/
theorem download_data_allOk (n : Nat) (hn : 0 < n) (env : Nat → Outcome)
    (hok : ∀ i, env i = Outcome.ok) (u : String) (fuel : Nat) (hfuel : n ≤ fuel) :
    download_data env (n : Int) u fuel = some (okTrace u 0 n, "OK") ∧
    (okTrace u 0 n).countP isUploadEvent = n ∧
    (okTrace u 0 n).countP isFetchEvent = n ∧
    (okTrace u 0 n).countP isDeleteEvent = n := by
  obtain ⟨h1, h2, h3⟩ := okTrace_counts u n 0
  refine ⟨?_, h2, h1, h3⟩
  have hrun := downloadLoop_allOk env u (n : Int) hok fuel 0 0 0 (by push_cast; omega)
  have htn : ((n : Int) - ((0 : Nat) : Int)).toNat = n := by omega
  rw [download_data, hrun, htn]

/-- Witness for C1 at `n = 1`, an always-succeeding oracle and fuel 1. -/
theorem download_data_allOk_witness :
    download_data (fun _ => Outcome.ok) ((1 : Nat) : Int) "u" 1 =
      some (okTrace "u" 0 1, "OK") ∧
    (okTrace "u" 0 1).countP isUploadEvent = 1 ∧
    (okTrace "u" 0 1).countP isFetchEvent = 1 ∧
    (okTrace "u" 0 1).countP isDeleteEvent = 1 :=
  download_data_allOk 1 (by decide) (fun _ => Outcome.ok) (fun _ => rfl) "u" 1 (by decide)

/-- C3: for every `file_limit = n > 0`, `download_data` terminates (some fuel
returns `some`) if and only if the attempt sequence eventually contains `n`
attempts that return HTTP 200 and upload without exception; in particular, with
a persistently failing remote source (no attempt is ever `ok`) it never
terminates. -/
theorem download_data_terminates_iff (n : Nat) (hn : 0 < n) (env : Nat → Outcome)
    (u : String) :
    (Terminates env (n : Int) u ↔ ∃ k, n ≤ successCount env k) ∧
    ((∀ i, env i ≠ Outcome.ok) → ¬ Terminates env (n : Int) u) := by
  constructor
  · constructor
    · rintro ⟨fuel, res, hres⟩
      have hle := downloadLoop_some_le env u (n : Int) fuel 0 0 0 res hres
      refine ⟨fuel, ?_⟩
      unfold successCount
      omega
    · rintro ⟨k, hk⟩
      obtain ⟨res, hres⟩ := downloadLoop_isSome env u (n : Int) k 0 0 0 (by
        unfold successCount at hk
        push_cast
        omega)
      exact ⟨k, res, hres⟩
  · rintro hnever ⟨fuel, res, hres⟩
    have hle := downloadLoop_some_le env u (n : Int) fuel 0 0 0 res hres
    rw [successCountFrom_of_never env hnever fuel 0] at hle
    omega

/-- Witness for C3 at `n = 1` and an always-succeeding oracle. -/
theorem download_data_terminates_iff_witness :
    Terminates (fun _ => Outcome.ok) ((1 : Nat) : Int) "u" :=
  (download_data_terminates_iff 1 (by decide) (fun _ => Outcome.ok) "u").1.mpr
    ⟨1, by decide⟩

/-- C4: in every terminating run of `download_data`, the j-th attempt (0-indexed)
fetches with offset `5 * j` seconds — the counter advances by exactly 5 on every
attempt, successful, non-200 or raising — and its URL is the base URL followed by
the offset rendered as zero-padded HHMMSS digits and the fixed suffix
`"Z.json.gz"`. -/
theorem download_data_url_offsets (env : Nat → Outcome) (lim : Int) (u : String)
    (fuel : Nat) (evs : List Event) (r : String)
    (h : download_data env lim u fuel = some (evs, r)) (j : Nat)
    (hj : j < (fetchUrls evs).length) :
    (fetchUrls evs)[j]? =
      some (base_url u ++ pad2 (5 * j / 3600) ++ pad2 (5 * j % 3600 / 60) ++
        pad2 (5 * j % 60) ++ "Z.json.gz") := by
  have hurl := downloadLoop_fetchUrls env u lim fuel 0 0 0 evs r h
  conv_lhs => rw [hurl]
  rw [List.getElem?_map, List.getElem?_range hj]
  simp [fileUrl, base_url, fmtFilename, String.append_assoc]

/-- Witness for C4: the single-attempt all-success run fetches offset 0 as
`000000Z.json.gz`. -/
theorem download_data_url_offsets_witness :
    (fetchUrls [Event.fetch "u/2023/11/01/000000Z.json.gz",
      Event.upload "raw/day=20231101/000000Z.json.gz",
      Event.deleteLocal "000000Z.json.gz"])[0]? =
      some (base_url "u" ++ pad2 (5 * 0 / 3600) ++ pad2 (5 * 0 % 3600 / 60) ++
        pad2 (5 * 0 % 60) ++ "Z.json.gz") :=
  download_data_url_offsets (fun _ => Outcome.ok) 1 "u" 1 _ "OK" (by decide) 0 (by decide)

/-- C9: for every `file_limit ≤ 0` the loop guard `downloaded < file_limit` is
false at entry, so `download_data` performs no fetch attempt and no upload (the
trace is empty) and returns `"OK"` immediately, for any fuel. -/
theorem download_data_nonpositive_limit (file_limit : Int) (h : file_limit ≤ 0)
    (env : Nat → Outcome) (u : String) (fuel : Nat) :
    download_data env file_limit u fuel = some ([], "OK") := by
  have h0 : ¬ (((0 : Nat) : Int) < file_limit) := by push_cast; omega
  cases fuel with
  | zero =>
    simp only [download_data, downloadLoop]
    rw [if_neg h0]
  | succ m =>
    simp only [download_data, downloadLoop]
    rw [if_neg h0]

/-- Witness for C9 at `file_limit = -1`. -/
theorem download_data_nonpositive_limit_witness :
    (-1 : Int) ≤ 0 ∧
      download_data (fun _ => Outcome.ok) (-1) "u" 3 = some ([], "OK") :=
  ⟨by decide, download_data_nonpositive_limit (-1) (by decide) (fun _ => Outcome.ok) "u" 3⟩

/-- C5: `prepare_data` on a listing with no `"Contents"` key returns
`"No files in bucket"` and performs zero copies; on a listing of `k` objects it
performs exactly `k` local copies, one per listed object key in listing order,
each to the local directory under the filename after the final `"/"` of the key,
and returns `"OK"`. -/
theorem prepare_data_spec (raw_dir : String) (objs : List String) :
    prepare_data raw_dir none = ([], "No files in bucket") ∧
    (prepare_data raw_dir (some objs)).2 = "OK" ∧
    (prepare_data raw_dir (some objs)).1 =
      objs.map (fun key =>
        { key := key,
          localPath := joinPath (joinPath raw_dir "day=20231101") (lastComponent key) :
          CopyOp }) ∧
    (prepare_data raw_dir (some objs)).1.length = objs.length := by
  refine ⟨rfl, rfl, rfl, ?_⟩
  simp [prepare_data]

/-- C8: the delete phase of `seed_database` empties the five tables in source
order salary_history, employee_project, employee, project, department — each
child table before every table it references — so from any state satisfying the
foreign-key constraints, every intermediate state after a single `DELETE FROM`
statement still satisfies them, and the final state has all five tables empty. -/
theorem seed_database_delete_order (db : DB) (h : ForeignKeysOk db) :
    (∀ s ∈ seedDeleteStates db, ForeignKeysOk s) ∧
    (seedDeleteStates db).getLastD db =
      { department := [], employee := [], project := [], employee_project := [],
        salary_history := [] } := by
  obtain ⟨h1, h2, h3, h4⟩ := h
  constructor
  · intro s hs
    simp only [seedDeleteStates, List.mem_cons, List.not_mem_nil, or_false] at hs
    rcases hs with rfl | rfl | rfl | rfl | rfl
    · exact ⟨h1, h2, h3, fun sh hsh => absurd hsh (List.not_mem_nil sh)⟩
    · exact ⟨h1, fun ep hep => absurd hep (List.not_mem_nil ep),
        fun ep hep => absurd hep (List.not_mem_nil ep),
        fun sh hsh => absurd hsh (List.not_mem_nil sh)⟩
    · exact ⟨fun e he => absurd he (List.not_mem_nil e),
        fun ep hep => absurd hep (List.not_mem_nil ep),
        fun ep hep => absurd hep (List.not_mem_nil ep),
        fun sh hsh => absurd hsh (List.not_mem_nil sh)⟩
    · exact ⟨fun e he => absurd he (List.not_mem_nil e),
        fun ep hep => absurd hep (List.not_mem_nil ep),
        fun ep hep => absurd hep (List.not_mem_nil ep),
        fun sh hsh => absurd hsh (List.not_mem_nil sh)⟩
    · exact ⟨fun e he => absurd he (List.not_mem_nil e),
        fun ep hep => absurd hep (List.not_mem_nil ep),
        fun ep hep => absurd hep (List.not_mem_nil ep),
        fun sh hsh => absurd hsh (List.not_mem_nil sh)⟩
  · rfl

/-- Witness for C8 on a populated sample state. -/
theorem seed_database_delete_order_witness :
    ForeignKeysOk sampleDb ∧
    ((∀ s ∈ seedDeleteStates sampleDb, ForeignKeysOk s) ∧
      (seedDeleteStates sampleDb).getLastD sampleDb =
        { department := [], employee := [], project := [], employee_project := [],
          salary_history := [] }) :=
  ⟨by unfold ForeignKeysOk; decide, seed_database_delete_order sampleDb (by unfold ForeignKeysOk; decide)⟩

/-- C10: for every `dept_id` matching no department row, the `WHERE d.id = %s`
filter leaves no group, so `fetchone()` yields `None`: `department_stats`
returns no record at all, not a record with null fields. -/
theorem department_stats_missing_dept (db : DB) (dept_id : Int)
    (h : ∀ d ∈ db.department, d.id ≠ dept_id) :
    department_stats db dept_id = none := by
  have hf : db.department.find? (fun d => d.id = dept_id) = none :=
    List.find?_eq_none.mpr (fun d hd => by simpa using h d hd)
  simp [department_stats, hf]

/-- Witness for C10 at a department id absent from the table. -/
theorem department_stats_missing_dept_witness :
    (∀ d ∈ noMatchDb.department, d.id ≠ 1) ∧ department_stats noMatchDb 1 = none :=
  ⟨by decide, department_stats_missing_dept noMatchDb 1 (by decide)⟩

/-- C7: for a `dept_id` matching no employee, `list_department_employees`
returns the empty mapping (because of `department_employees or {}`), not an
empty sequence; for a `dept_id` with matching employees it returns the JSON list
of exactly those employees ordered by ascending id. -/
theorem list_department_employees_empty_or_sorted (db : DB) (dept_id : Int) :
    ((∀ e ∈ db.employee, e.department_id ≠ dept_id) →
      list_department_employees db dept_id = DeptEmpResult.emptyDict) ∧
    ((∃ e ∈ db.employee, e.department_id = dept_id) →
      ∃ rows, list_department_employees db dept_id = DeptEmpResult.list rows ∧
        rows.Perm ((db.employee.filter (fun e => e.department_id = dept_id)).map
          empToDeptRow) ∧
        List.Pairwise (fun a b => a.id ≤ b.id) rows) := by
  constructor
  · intro h
    have hf : db.employee.filter (fun e => e.department_id = dept_id) = [] :=
      List.filter_eq_nil_iff.mpr (fun e he => by simpa using h e he)
    simp [list_department_employees, hf]
  · rintro ⟨e, he, hdep⟩
    have hmem : e ∈ db.employee.filter (fun e => e.department_id = dept_id) :=
      List.mem_filter.mpr ⟨he, by simpa using hdep⟩
    have hlne : (db.employee.filter (fun e => e.department_id = dept_id)).map
        empToDeptRow ≠ [] := by
      intro h0
      have hm : empToDeptRow e ∈ (db.employee.filter
          (fun e => e.department_id = dept_id)).map empToDeptRow :=
        List.mem_map_of_mem _ hmem
      rw [h0] at hm
      exact List.not_mem_nil _ hm
    have hperm := List.perm_insertionSort (fun a b : DeptEmpRow => a.id ≤ b.id)
      ((db.employee.filter (fun e => e.department_id = dept_id)).map empToDeptRow)
    have hne : List.insertionSort (fun a b : DeptEmpRow => a.id ≤ b.id)
        ((db.employee.filter (fun e => e.department_id = dept_id)).map empToDeptRow) ≠ [] := by
      intro h0
      apply hlne
      have hlen := hperm.length_eq
      rw [h0] at hlen
      exact List.length_eq_zero.mp hlen.symm
    refine ⟨_, ?_, hperm, ?_⟩
    · simp only [list_department_employees]
      rw [if_neg (by simpa [List.isEmpty_iff] using hne)]
    · haveI : IsTotal DeptEmpRow (fun a b => a.id ≤ b.id) := ⟨fun a b => le_total a.id b.id⟩
      haveI : IsTrans DeptEmpRow (fun a b => a.id ≤ b.id) :=
        ⟨fun a b c hab hbc => le_trans hab hbc⟩
      exact List.sorted_insertionSort _ _

/-- Witness for C7 at a department id with no employees. -/
theorem list_department_employees_witness :
    list_department_employees sampleDb 99 = DeptEmpResult.emptyDict :=
  (list_department_employees_empty_or_sorted sampleDb 99).1 (by decide)

/-- C6: for every `page ≥ 1` and `per_page` in 1..100, `list_employees` returns
at most `per_page` rows, ordered by ascending employee id; its j-th row is the
`((page-1)*per_page + j)`-th row of the full id-ordered join, so the first
`(page-1)*per_page` employees (in id order, among those whose department
exists) are skipped; a page starting beyond the end of the join yields the
empty sequence, not an error; and every returned row comes from an employee
joined to an existing department. -/
theorem list_employees_pagination (db : DB) (page per_page : Nat)
    (_hp : 1 ≤ page) (_hpp1 : 1 ≤ per_page) (_hpp2 : per_page ≤ 100) :
    (list_employees db page per_page).length ≤ per_page ∧
    List.Pairwise (fun a b => a.id ≤ b.id) (list_employees db page per_page) ∧
    (∀ j, j < per_page →
      (list_employees db page per_page)[j]? =
        (employeesOrdered db)[(page - 1) * per_page + j]?) ∧
    ((employeesOrdered db).length ≤ (page - 1) * per_page →
      list_employees db page per_page = []) ∧
    (∀ row ∈ list_employees db page per_page, ∃ e ∈ db.employee,
      ∃ d ∈ db.department, d.id = e.department_id ∧ row = empRowOf e d) := by
  have hsub : (list_employees db page per_page).Sublist (employeesOrdered db) :=
    (List.take_sublist _ _).trans (List.drop_sublist _ _)
  refine ⟨?_, ?_, ?_, ?_, ?_⟩
  · simp only [list_employees]
    rw [List.length_take]
    exact min_le_left _ _
  · haveI : IsTotal EmpRow (fun a b => a.id ≤ b.id) := ⟨fun a b => le_total a.id b.id⟩
    haveI : IsTrans EmpRow (fun a b => a.id ≤ b.id) :=
      ⟨fun a b c hab hbc => le_trans hab hbc⟩
    have hsorted := List.sorted_insertionSort (fun a b : EmpRow => a.id ≤ b.id)
      (employeesJoined db)
    exact List.Pairwise.sublist hsub hsorted
  · intro j hj
    simp only [list_employees]
    rw [List.getElem?_take, if_pos hj, List.getElem?_drop]
  · intro hlen
    simp only [list_employees]
    rw [List.drop_eq_nil_of_le hlen]
    exact List.take_nil
  · intro row hrow
    have hmem : row ∈ employeesOrdered db := hsub.subset hrow
    have hmem2 : row ∈ employeesJoined db :=
      (List.perm_insertionSort (fun a b : EmpRow => a.id ≤ b.id)
        (employeesJoined db)).subset hmem
    simp only [employeesJoined, List.mem_flatMap, List.mem_map, List.mem_filter] at hmem2
    obtain ⟨e, he, d, ⟨hd, hid⟩, hr⟩ := hmem2
    exact ⟨e, he, d, hd, by simpa using hid, hr.symm⟩

/-- Witness for C6 on the sample state at page 1, 10 rows per page. -/
theorem list_employees_pagination_witness :
    (list_employees sampleDb 1 10).length ≤ 10 ∧
    List.Pairwise (fun a b => a.id ≤ b.id) (list_employees sampleDb 1 10) ∧
    (∀ j, j < 10 →
      (list_employees sampleDb 1 10)[j]? =
        (employeesOrdered sampleDb)[(1 - 1) * 10 + j]?) ∧
    ((employeesOrdered sampleDb).length ≤ (1 - 1) * 10 →
      list_employees sampleDb 1 10 = []) ∧
    (∀ row ∈ list_employees sampleDb 1 10, ∃ e ∈ sampleDb.employee,
      ∃ d ∈ sampleDb.department, d.id = e.department_id ∧ row = empRowOf e d) :=
  list_employees_pagination sampleDb 1 10 (by decide) (by decide) (by decide)

theorem statsJoinRows_countP (db : DB) (d : Department)
    (h : statsEmployees db d ≠ []) :
    (statsJoinRows db d).countP (fun r => r.1.isSome) =
      ((statsEmployees db d).map (fun e => max 1 (empAssignments db e).length)).sum := by
  unfold statsJoinRows
  rw [if_neg (by simpa [List.isEmpty_iff] using h)]
  rw [List.countP_flatMap]
  congr 1
  refine List.map_congr_left ?_
  intro e _
  by_cases hk : (empAssignments db e).isEmpty
  · have hnil : empAssignments db e = [] := List.isEmpty_iff.mp hk
    simp [hk, hnil, List.countP_cons]
  · have hne : empAssignments db e ≠ [] := by simpa [List.isEmpty_iff] using hk
    have hpos : 1 ≤ (empAssignments db e).length :=
      List.length_pos.mpr hne
    rw [Function.comp_apply, if_neg hk, List.countP_map]
    have : ((fun r : Option Employee × Option EmployeeProject => r.1.isSome) ∘
        (fun ep => (some e, some ep))) = fun _ => true := by
      funext ep
      simp
    rw [this, List.countP_true]
    omega

theorem statsJoinRows_salaries (db : DB) (d : Department)
    (h : statsEmployees db d ≠ []) :
    (statsJoinRows db d).filterMap (fun r => r.1.map Employee.salary) =
      weightedSalaryList db d := by
  unfold statsJoinRows weightedSalaryList
  rw [if_neg (by simpa [List.isEmpty_iff] using h)]
  rw [List.filterMap_flatMap]
  refine List.flatMap_congr ?_
  intro e _
  by_cases hk : (empAssignments db e).isEmpty
  · have hnil : empAssignments db e = [] := List.isEmpty_iff.mp hk
    simp [hk, hnil, List.filterMap_cons]
  · have hne : empAssignments db e ≠ [] := by simpa [List.isEmpty_iff] using hk
    have hpos : 1 ≤ (empAssignments db e).length := List.length_pos.mpr hne
    rw [if_neg hk, List.filterMap_map]
    have hfn : ((fun r : Option Employee × Option EmployeeProject => r.1.map Employee.salary) ∘
        (fun ep => (some e, some ep))) = fun _ => some e.salary := by
      funext ep
      simp
    rw [hfn]
    have hmax : max 1 (empAssignments db e).length = (empAssignments db e).length := by omega
    rw [hmax]
    have := List.map_const' (empAssignments db e) e.salary
    calc List.filterMap (fun _ => some e.salary) (empAssignments db e)
        = List.map (fun _ => e.salary) (empAssignments db e) := by
          rw [show (fun _ : EmployeeProject => some e.salary) =
            (some ∘ fun _ : EmployeeProject => e.salary) from rfl, List.filterMap_eq_map]
      _ = List.replicate (empAssignments db e).length e.salary := this

theorem statsJoinRows_projects (db : DB) (d : Department)
    (h : statsEmployees db d ≠ []) :
    (statsJoinRows db d).filterMap (fun r => r.2.map EmployeeProject.project_id) =
      ((statsEmployees db d).flatMap (fun e => empAssignments db e)).map
        EmployeeProject.project_id := by
  unfold statsJoinRows
  rw [if_neg (by simpa [List.isEmpty_iff] using h)]
  rw [List.filterMap_flatMap, List.map_flatMap]
  refine List.flatMap_congr ?_
  intro e _
  by_cases hk : (empAssignments db e).isEmpty
  · have hnil : empAssignments db e = [] := List.isEmpty_iff.mp hk
    simp [hk, hnil, List.filterMap_cons]
  · rw [if_neg hk, List.filterMap_map]
    have hfn : ((fun r : Option Employee × Option EmployeeProject =>
        r.2.map EmployeeProject.project_id) ∘ (fun ep => (some e, some ep))) =
        (some ∘ EmployeeProject.project_id) := by
      funext ep
      simp
    rw [hfn, List.filterMap_eq_map]

theorem weightedSalaryList_ne_nil (db : DB) (d : Department)
    (h : statsEmployees db d ≠ []) : weightedSalaryList db d ≠ [] := by
  obtain ⟨e, l, hel⟩ := List.exists_cons_of_ne_nil h
  unfold weightedSalaryList
  rw [hel, List.flatMap_cons]
  intro h0
  have := List.append_eq_nil.mp h0
  have hrep := this.1
  rw [List.eq_nil_iff_forall_not_mem] at hrep
  exact hrep e.salary (List.mem_replicate.mpr ⟨by omega, rfl⟩)

/-- C2 (amended): for every existing department (the first row matched by
`WHERE d.id = %s`), `department_stats` returns a record whose `employee_count`
is the row count of the double left join — each employee counted once per
project assignment, and once if they have none — whose `avg_salary` is the
correspondingly weighted average of the employees' salaries (`none`, not an
error, when the department has no employees), and whose `project_count` is the
number of distinct projects the department's employees are assigned to. -/
theorem department_stats_weighted (db : DB) (dept_id : Int) (d : Department)
    (hd : db.department.find? (fun x => x.id = dept_id) = some d) :
    ∃ r, department_stats db dept_id = some r ∧
      r.department_name = d.name ∧
      r.employee_count =
        ((statsEmployees db d).map (fun e => max 1 (empAssignments db e).length)).sum ∧
      r.avg_salary = (if statsEmployees db d = [] then none else
        some ((weightedSalaryList db d).sum / ((weightedSalaryList db d).length : Rat))) ∧
      r.project_count = (((statsEmployees db d).flatMap (fun e => empAssignments db e)).map
        EmployeeProject.project_id).dedup.length ∧
      (statsEmployees db d = [] → r.employee_count = 0 ∧ r.avg_salary = none) := by
  simp only [department_stats, hd]
  by_cases hemp : statsEmployees db d = []
  · have hrows : statsJoinRows db d = [(none, none)] := by
      unfold statsJoinRows
      rw [if_pos (by simp [List.isEmpty_iff, hemp])]
    refine ⟨_, rfl, rfl, ?_, ?_, ?_, ?_⟩
    · rw [hrows, hemp]
      rfl
    · rw [hrows, if_pos hemp]
      rfl
    · rw [hrows, hemp]
      rfl
    · intro _
      constructor
      · rw [hrows]
        rfl
      · rw [hrows]
        rfl
  · refine ⟨_, rfl, rfl, ?_, ?_, ?_, ?_⟩
    · exact statsJoinRows_countP db d hemp
    · rw [statsJoinRows_salaries db d hemp, if_neg hemp,
        if_neg (by simpa [List.isEmpty_iff] using weightedSalaryList_ne_nil db d hemp)]
    · rw [statsJoinRows_projects db d hemp]
    · intro h0
      exact absurd h0 hemp

/-- Counterexample to C2 as stated: on `statsCexDb`, department 1 has 2
employees with plain average salary 150, but `department_stats` reports
`employee_count = 3` and `avg_salary = 400/3`, because the first employee's two
project assignments duplicate their row in the join. -/
theorem department_stats_overcount :
    (department_stats statsCexDb 1).map DeptStats.employee_count = some 3 ∧
    (statsCexDb.employee.filter (fun e => e.department_id = 1)).length = 2 ∧
    (department_stats statsCexDb 1).map DeptStats.employee_count ≠
      some (statsCexDb.employee.filter (fun e => e.department_id = 1)).length ∧
    (department_stats statsCexDb 1).map DeptStats.avg_salary =
      some (some ((400 : Rat) / 3)) ∧
    ((statsCexDb.employee.filter (fun e => e.department_id = 1)).map Employee.salary).sum /
      ((((statsCexDb.employee.filter (fun e => e.department_id = 1)).map
        Employee.salary).length : Nat) : Rat) = 150 ∧
    (400 : Rat) / 3 ≠ 150 := by
  have hfind : statsCexDb.department.find? (fun x => x.id = 1) =
      some (Department.mk 1 "Engineering" "Madrid") := by decide
  have hsals : ((statsJoinRows statsCexDb (Department.mk 1 "Engineering" "Madrid")).filterMap
      (fun r => r.1.map Employee.salary)) = [100, 100, 200] := by decide
  refine ⟨by decide, by decide, by decide, ?_, ?_, by norm_num⟩
  · simp only [department_stats, hfind, Option.map_some', hsals]
    norm_num
  · have hmap : (statsCexDb.employee.filter (fun e => e.department_id = 1)).map
        Employee.salary = [100, 200] := by decide
    rw [hmap]
    norm_num

/-- Witness for the amended C2 on a department with zero employees. -/
theorem department_stats_weighted_witness :
    (noMatchDb.department.find? (fun x => x.id = 2) =
      some (Department.mk 2 "Sales" "Paris")) ∧
    (∃ r, department_stats noMatchDb 2 = some r ∧
      r.department_name = (Department.mk 2 "Sales" "Paris").name ∧
      r.employee_count = ((statsEmployees noMatchDb (Department.mk 2 "Sales" "Paris")).map
        (fun e => max 1 (empAssignments noMatchDb e).length)).sum ∧
      r.avg_salary = (if statsEmployees noMatchDb (Department.mk 2 "Sales" "Paris") = []
        then none
        else some ((weightedSalaryList noMatchDb (Department.mk 2 "Sales" "Paris")).sum /
          ((weightedSalaryList noMatchDb (Department.mk 2 "Sales" "Paris")).length : Rat))) ∧
      r.project_count = (((statsEmployees noMatchDb (Department.mk 2 "Sales" "Paris")).flatMap
        (fun e => empAssignments noMatchDb e)).map EmployeeProject.project_id).dedup.length ∧
      (statsEmployees noMatchDb (Department.mk 2 "Sales" "Paris") = [] →
        r.employee_count = 0 ∧ r.avg_salary = none)) :=
  ⟨by decide, department_stats_weighted noMatchDb 2 (Department.mk 2 "Sales" "Paris")
    (by decide)⟩
